import Mathlib

/-!
Verification of the WhisperLiveKit streaming-session orchestration and
speaker-attribution engine.  The definitions below are shallow embeddings of
the Python source:

* `whisperlivekit/diarization/sortformer_backend.py` — the segment tracker
  (`diarize`, lines 140–151) and token alignment
  (`assign_speakers_to_tokens`, lines 157–165);
* `whisperlivekit/basic_server.py` — the chunk-sequence check
  (lines 346–349, 692–695), keyword detection (lines 127–137, 498–512),
  stream-completion handling (lines 153–166), session bookkeeping
  (lines 368–370, 412–425) and the cleanup paths of the two WebSocket
  endpoints (lines 357–385, 404–442).

Times are modelled as rationals, machine integers as naturals (no overflow is
reachable in the modelled fragments), and the mutable Python state is passed
explicitly.
-/

namespace WhisperLiveKit

/-- Modelled from the spec: `SpeakerSegment` (defined in
`whisperlivekit/timed_objects.py`, which is not part of the sources) carries a
positive speaker id and a start/end time in seconds.  Only the three fields
used by `sortformer_backend.py` are modelled. -/
structure SpeakerSegment where
  speaker : ℕ
  start : ℚ
  «end» : ℚ
deriving DecidableEq, Repr

/-- Modelled from the spec: a transcription `Token` (produced by the external
transcription collaborator) has start/end times, text, and a mutable speaker
field that is unset (`none`) until alignment. -/
structure Token where
  start : ℚ
  «end» : ℚ
  text : String
  speaker : Option ℕ
deriving DecidableEq, Repr

/-- Per-frame segment update of `SortformerDiarization.diarize`
(`sortformer_backend.py` lines 144–151): if the segment list is non-empty and
the last segment's speaker equals `spk + 1`, the last segment's end time is
overwritten with `e`; otherwise a new segment `⟨spk + 1, s, e⟩` is appended.
`spk` is the 0-based argmax speaker index of the frame, `s`/`e` the frame's
absolute start/end times. -/
def updateSpeakerSegments (segs : List SpeakerSegment) (spk : ℕ) (s e : ℚ) :
    List SpeakerSegment :=
  match segs.getLast? with
  | some lastSeg =>
    if lastSeg.speaker = spk + 1 then
      segs.dropLast ++ [{ lastSeg with «end» := e }]
    else
      segs ++ [⟨spk + 1, s, e⟩]
  | none => segs ++ [⟨spk + 1, s, e⟩]

/-- Overlap test of `assign_speakers_to_tokens` (`sortformer_backend.py`
line 163): `not (segment.end <= token.start or segment.start >= token.end)`. -/
def overlaps (segment : SpeakerSegment) (token : Token) : Bool :=
  !(decide (segment.«end» ≤ token.start) || decide (segment.start ≥ token.«end»))

/-- Inner loop of `assign_speakers_to_tokens` for one token
(`sortformer_backend.py` lines 162–164): every stored segment that overlaps
the token overwrites the token's speaker, in storage order. -/
def assignOne (segs : List SpeakerSegment) (tok : Token) : Token :=
  segs.foldl
    (fun t segment =>
      if overlaps segment t then { t with speaker := some segment.speaker } else t)
    tok

/-- `SortformerDiarization.assign_speakers_to_tokens`
(`sortformer_backend.py` lines 157–165). -/
def assign_speakers_to_tokens (segs : List SpeakerSegment) (tokens : List Token) :
    List Token :=
  tokens.map (assignOne segs)

/-- Instance attributes of `SortformerDiarization` that are created only when
`__init__` runs past its `try/except`: the rolling `self.audio_buffer` and the
accumulated `self.speaker_segments` (`sortformer_backend.py` lines 44–46). -/
structure DiarAttrs where
  audio_buffer : List ℚ
  speaker_segments : List SpeakerSegment
deriving DecidableEq, Repr

/-- State of a `SortformerDiarization` instance as far as the no-model failure
path is concerned: whether `self.diar_model` is set (not `None`), and the
buffer/segment attributes, which are `none` when the constructor took its
early-return failure path (`sortformer_backend.py` lines 16–22) and so never
reached the assignments at lines 44–46. -/
structure DiarState where
  diar_model : Bool
  attrs : Option DiarAttrs
deriving DecidableEq, Repr

/-- State produced by the constructor when loading the model raises
(`sortformer_backend.py` lines 16–22): `self.diar_model = None` is assigned
inside the `except` clause and the constructor returns before
`self.audio_buffer` / `self.speaker_segments` are created. -/
def initFailedState : DiarState := ⟨false, none⟩

/-- `SortformerDiarization.diarize` (`sortformer_backend.py` lines 85–100):
when `self.diar_model is None` the method returns immediately — before any
attribute beyond `diar_model` is touched — so the state is unchanged and
nothing is buffered, drained or sent to inference.  The loaded-model path
(buffering, window draining and streaming inference) is abstracted as the
parameter `loadedPath`, since no claim depends on it. -/
def diarize (loadedPath : DiarState → List ℚ → DiarState)
    (st : DiarState) (pcm : List ℚ) : DiarState :=
  if st.diar_model then loadedPath st pcm else st

/-- `SortformerDiarization.assign_speakers_to_tokens` as invoked on an
instance (`sortformer_backend.py` lines 157–165): the loop over the tokens
reads `self.speaker_segments` on its first iteration, so with a nonempty
token list and the attribute missing (constructor failure path) Python raises
`AttributeError`; an empty token list never reads the attribute and is
returned unchanged.  When the attributes exist, the per-token behavior is
`assignOne` (as in `assign_speakers_to_tokens` on a segment list). -/
def DiarState.assign_speakers_to_tokens (st : DiarState)
    (tokens : List Token) : Except String (List Token) :=
  if tokens.isEmpty then Except.ok tokens
  else
    match st.attrs with
    | none => Except.error "AttributeError: speaker_segments"
    | some a => Except.ok (tokens.map (assignOne a.speaker_segments))

/-- Sequence check of the `audio_chunk_meta` handlers (`basic_server.py`
lines 346–349 and 692–695): given the current `expected_seq` and the incoming
`seq`, a warning carrying `(expected, observed)` is logged when
`seq != expected_seq and expected_seq > 1`, and in all cases `expected_seq`
becomes `seq + 1` afterwards; processing always continues. -/
def observe (expected seq : ℕ) : ℕ × Option (ℕ × ℕ) :=
  (seq + 1, if seq ≠ expected ∧ 1 < expected then some (expected, seq) else none)

/-- Fold of `observe` over a list of incoming sequence numbers, collecting the
emitted warnings in order. -/
def observeAll (expected : ℕ) : List ℕ → ℕ × List (ℕ × ℕ)
  | [] => (expected, [])
  | s :: rest =>
    let step := observe expected s
    let tail := observeAll step.1 rest
    (tail.1, step.2.toList ++ tail.2)

/-- Control messages of the multicam / smart-store WebSocket loops, restricted
to what the sequence-checking state depends on: `audio_stream_start`,
`audio_chunk_meta` with its `seq`, and `audio_stream_stop`. -/
inductive WsMsg where
  | start
  | meta (seq : ℕ)
  | stop
deriving DecidableEq, Repr

/-- Connection-loop state relevant to sequence checking: the `stream_started`
flag and the `expected_seq` counter of `websocket_multicam_endpoint` /
`websocket_smart_store_endpoint` (`basic_server.py` lines 245–246, 585–586). -/
structure ConnState where
  stream_started : Bool
  expected_seq : ℕ
deriving DecidableEq, Repr

/-- Initial per-connection state: `stream_started = False`,
`expected_seq = 1` (`basic_server.py` lines 245–246). -/
def initConnState : ConnState := ⟨false, 1⟩

/-- One step of the `/asr-multicam` control loop (`basic_server.py`
lines 256–349): `audio_stream_start` sets `stream_started` but does not touch
`expected_seq`; `audio_chunk_meta` runs the sequence check only once a stream
has started (otherwise an error reply is sent and the state is unchanged);
`audio_stream_stop` breaks out of the loop without touching the counter. -/
def multicamStep (st : ConnState) (m : WsMsg) : ConnState × Option (ℕ × ℕ) :=
  match m with
  | .start => ({ st with stream_started := true }, none)
  | .meta seq =>
    if st.stream_started then
      ({ st with expected_seq := seq + 1 },
        if seq ≠ st.expected_seq ∧ 1 < st.expected_seq then
          some (st.expected_seq, seq)
        else none)
    else (st, none)
  | .stop => (st, none)

/-- One step of the `/asr-smart-store` control loop (`basic_server.py`
lines 596–730): unlike the multicam endpoint, `audio_stream_start` resets
`expected_seq` to 1 (line 667), and `audio_stream_stop` resets both
`stream_started` and `expected_seq` (lines 728–729) instead of terminating
the connection. -/
def smartStoreStep (st : ConnState) (m : WsMsg) : ConnState × Option (ℕ × ℕ) :=
  match m with
  | .start => (⟨true, 1⟩, none)
  | .meta seq =>
    if st.stream_started then
      ({ st with expected_seq := seq + 1 },
        if seq ≠ st.expected_seq ∧ 1 < st.expected_seq then
          some (st.expected_seq, seq)
        else none)
    else (st, none)
  | .stop => (⟨false, 1⟩, none)

/-- Run a connection-loop step function over a message trace, collecting the
sequence warnings in order. -/
def runConn (step : ConnState → WsMsg → ConnState × Option (ℕ × ℕ))
    (st : ConnState) : List WsMsg → ConnState × List (ℕ × ℕ)
  | [] => (st, [])
  | m :: rest =>
    let s := step st m
    let tail := runConn step s.1 rest
    (tail.1, s.2.toList ++ tail.2)

/-- Substring test mirroring Python's `in` operator on strings: true exactly
when `needle` occurs contiguously inside `hay`. -/
def strContains : List Char → List Char → Bool
  | [], needle => needle.isEmpty
  | hay@(_ :: t), needle => needle.isPrefixOf hay || strContains t needle

/-- Keyword detection over one finalized transcript line
(`basic_server.py` lines 127–137 and 498–512): the lower-cased line is
scanned for the greeting phrase and, via `elif`, for the apology phrase; a
branch fires only when its event code is not yet in the customer's
`detected_keywords` set, and firing adds the code to the set.  Returns the
updated set and the dispatched event code, if any. -/
def evalKeywords (detected : List String) (text : List Char) :
    List String × Option String :=
  let transcript_lower := text.map Char.toLower
  if strContains transcript_lower "xin chào".toList = true ∧
      "SAY_HELLO" ∉ detected then
    ("SAY_HELLO" :: detected, some "SAY_HELLO")
  else if strContains transcript_lower "xin lỗi".toList = true ∧
      "SAY_SORRY" ∉ detected then
    ("SAY_SORRY" :: detected, some "SAY_SORRY")
  else (detected, none)

/-- Fold of `evalKeywords` over the finalized lines of one customer's stream,
collecting the dispatched event codes in order. -/
def runKeywordLines (detected : List String) :
    List (List Char) → List String × List String
  | [] => (detected, [])
  | tx :: rest =>
    let step := evalKeywords detected tx
    let tail := runKeywordLines step.1 rest
    (tail.1, step.2.toList ++ tail.2)

/-- Payload of `call_experience_event_api` (`basic_server.py` lines 83–86):
the dispatched experience event carries exactly the customer id (`UUID`) and
the event code (`EVENT`). -/
structure ApiPayload where
  UUID : String
  EVENT : String
deriving DecidableEq, Repr

/-- Per-customer record stored in `customer_data`
(`basic_server.py` lines 105–110). -/
structure CustomerInfo where
  detected_keywords : List String
  full_transcript : List String
deriving DecidableEq, Repr

/-- Completion path of `handle_websocket_results_multicam` after the results
generator finishes (`basic_server.py` lines 153–166): the accumulated
transcript is joined (and logged), one `SESSION_END` experience event is
dispatched whose payload carries only the customer id and event code, and the
customer's `customer_data` record is deleted.  Returns the dispatched
payloads, the logged transcript text, and the updated `customer_data` map. -/
def sessionEndCompletion (customer_id : String) (customer_info : CustomerInfo)
    (customer_data : List (String × CustomerInfo)) :
    List ApiPayload × String × List (String × CustomerInfo) :=
  let full_transcript_text :=
    if (customer_data.lookup customer_id).isSome then
      String.intercalate " " customer_info.full_transcript
    else ""
  ([⟨customer_id, "SESSION_END"⟩], full_transcript_text,
    customer_data.eraseP (fun p => p.1 == customer_id))

/-- Customer lifecycle status stored in
`active_sessions[session_uuid]["customers"][customer_id]["status"]`
(`basic_server.py` lines 301, 369, 414). -/
inductive CustomerStatus where
  | active
  | stopped
  | closed
deriving DecidableEq, Repr

/-- Aggregate session status stored in
`active_sessions[session_uuid]["session_info"]["status"]`
(`basic_server.py` lines 288, 423). -/
inductive SessionStatus where
  | active
  | closed
deriving DecidableEq, Repr

/-- One entry of the `active_sessions` map: the per-customer status map and
the session info (aggregate status and end timestamp). -/
structure SessionState where
  customers : List (String × CustomerStatus)
  status : SessionStatus
  end_time : Option ℚ
deriving DecidableEq, Repr

/-- The closing check of the multicam finally block (`basic_server.py`
lines 418–421): every customer's status is `closed` or `stopped`. -/
def allCustomersClosed (s : SessionState) : Bool :=
  s.customers.all fun c =>
    decide (c.2 = CustomerStatus.closed ∨ c.2 = CustomerStatus.stopped)

/-- Set one customer's status in the session's customer map. -/
def markCustomerStatus (cid : String) (st : CustomerStatus) (s : SessionState) :
    SessionState :=
  { s with customers := s.customers.map fun p =>
      if p.1 = cid then (p.1, st) else p }

/-- Session bookkeeping of the `audio_stream_stop` handler (`basic_server.py`
lines 368–370): if the customer exists in the session it is marked `stopped`;
no closing check runs here. -/
def stopCustomer (cid : String) (s : SessionState) : SessionState :=
  if (s.customers.lookup cid).isSome then
    markCustomerStatus cid CustomerStatus.stopped s
  else s

/-- Session bookkeeping of the multicam finally block (`basic_server.py`
lines 412–425): if the customer exists it is marked `closed`, and if the
closing check then passes, the session's aggregate status is set to `closed`
and an end timestamp `t` is recorded. -/
def cleanupCustomer (t : ℚ) (cid : String) (s : SessionState) : SessionState :=
  if (s.customers.lookup cid).isSome then
    let s1 := markCustomerStatus cid CustomerStatus.closed s
    if allCustomersClosed s1 then
      { s1 with status := SessionStatus.closed, end_time := some t }
    else s1
  else s

/-- Cleanup actions appearing on the termination paths of a multicam stream
session (`basic_server.py` lines 357–385 and 408–440). -/
inductive CleanupAction where
  | markStopped
  | flushEmpty
  | sendStopped
  | registryUpdate
  | cancelEmission
  | awaitEmission
  | pipelineRelease
deriving DecidableEq, Repr

/-- Interpreter for a straight-line block of cleanup steps
`(action, guarded, raises)`: steps run in order; a step that raises aborts
the remaining steps unless it is guarded by a `try/except` that swallows the
exception. -/
def runSteps : List (CleanupAction × Bool × Bool) → List CleanupAction
  | [] => []
  | (a, guarded, raises) :: rest =>
    a :: (if raises && !guarded then [] else runSteps rest)

/-- Kinds of termination of a multicam stream session: a voluntary
`audio_stream_stop`, a transport disconnect, or an unexpected error. -/
inductive TermKind where
  | stop
  | disconnect
  | error
deriving DecidableEq, Repr

/-- The finally block of `websocket_multicam_endpoint` (`basic_server.py`
lines 408–440), in source order: the SessionRegistry update (an unguarded
dictionary mutation that does not raise), the cancellation of the emission
task, the awaiting of that task — wrapped in `try/except` clauses that
swallow `CancelledError` and any other exception, with `awaitRaises`
modelling the awaited task's outcome — and the audio processor cleanup. -/
def multicamFinally (awaitRaises : Bool) : List (CleanupAction × Bool × Bool) :=
  [(CleanupAction.registryUpdate, false, false),
    (CleanupAction.cancelEmission, false, false),
    (CleanupAction.awaitEmission, true, awaitRaises),
    (CleanupAction.pipelineRelease, false, false)]

/-- Cleanup actions executed on a termination of kind `k`: only a voluntary
`audio_stream_stop` first runs its handler (`basic_server.py` lines 357–385:
mark the customer stopped, flush a final empty audio buffer, send the
`audio_stream_stopped` reply, then `break`); every termination kind then
reaches the finally block. -/
def executedCleanup (k : TermKind) (awaitRaises : Bool) : List CleanupAction :=
  (match k with
    | TermKind.stop =>
      [CleanupAction.markStopped, CleanupAction.flushEmpty,
        CleanupAction.sendStopped]
    | TermKind.disconnect => []
    | TermKind.error => []) ++ runSteps (multicamFinally awaitRaises)

/-- The cumulative speaker update of one token preserves the token's times:
only the `speaker` field is ever rewritten by the loop of
`assign_speakers_to_tokens`. -/
theorem assignOne_start_end (segs : List SpeakerSegment) (tok : Token) :
    (assignOne segs tok).start = tok.start ∧
      (assignOne segs tok).«end» = tok.«end» := by
  induction segs generalizing tok with
  | nil => exact ⟨rfl, rfl⟩
  | cons sg rest ih =>
    have hstep :
        assignOne (sg :: rest) tok =
          assignOne rest
            (if overlaps sg tok then { tok with speaker := some sg.speaker }
             else tok) := by
      simp [assignOne, List.foldl_cons]
    rw [hstep]
    rcases ih (if overlaps sg tok then { tok with speaker := some sg.speaker }
      else tok) with ⟨h1, h2⟩
    constructor
    · rw [h1]; by_cases h : overlaps sg tok <;> simp [h]
    · rw [h2]; by_cases h : overlaps sg tok <;> simp [h]

/-- The overlap test only reads the token's times, so it is unaffected by
earlier speaker rewrites. -/
theorem overlaps_assignOne (sg : SpeakerSegment) (segs : List SpeakerSegment)
    (tok : Token) : overlaps sg (assignOne segs tok) = overlaps sg tok := by
  rcases assignOne_start_end segs tok with ⟨h1, h2⟩
  simp [overlaps, h1, h2]

/-- Characterization of the per-token loop of `assign_speakers_to_tokens`:
the final speaker is that of the last overlapping stored segment, and the
token is untouched when no segment overlaps. -/
theorem assignOne_speaker (segs : List SpeakerSegment) (tok : Token) :
    (assignOne segs tok).speaker =
      ((segs.filter fun sg => overlaps sg tok).getLast?).elim tok.speaker
        (fun sg => some sg.speaker) := by
  induction segs using List.reverseRecOn with
  | nil => simp [assignOne]
  | append_singleton l sg ih =>
    have hfold : assignOne (l ++ [sg]) tok =
        (if overlaps sg (assignOne l tok) then
          { assignOne l tok with speaker := some sg.speaker }
         else assignOne l tok) := by
      simp [assignOne, List.foldl_append]
    rw [hfold, overlaps_assignOne sg l tok, List.filter_append]
    by_cases h : overlaps sg tok
    · simp [h, List.getLast?_concat]
    · simp [h, ih]

/-- A key that does not occur among an association list's keys looks up to
`none`. -/
theorem lookup_eq_none_of_not_mem_keys (a : String)
    (l : List (String × CustomerInfo)) (h : a ∉ l.map Prod.fst) :
    l.lookup a = none := by
  induction l with
  | nil => rfl
  | cons p t ih =>
    simp only [List.map_cons, List.mem_cons, not_or] at h
    have hne : (a == p.1) = false := by simpa using h.1
    rw [List.lookup_cons, hne]
    exact ih h.2

/-- Deleting a key from an association list with distinct keys makes a
subsequent lookup of that key fail. -/
theorem lookup_eraseP_self (cid : String) (db : List (String × CustomerInfo))
    (h : (db.map Prod.fst).Nodup) :
    (db.eraseP fun p => p.1 == cid).lookup cid = none := by
  induction db with
  | nil => rfl
  | cons p t ih =>
    simp only [List.map_cons, List.nodup_cons] at h
    obtain ⟨hp, ht⟩ := h
    by_cases hk : p.1 = cid
    · have h1 : (p.1 == cid) = true := by simpa using hk
      rw [List.eraseP_cons, h1, Bool.cond_true]
      subst hk
      exact lookup_eq_none_of_not_mem_keys p.1 t hp
    · have h1 : (p.1 == cid) = false := by simpa using hk
      rw [List.eraseP_cons, h1, Bool.cond_false]
      have h2 : (cid == p.1) = false := by simpa using Ne.symm hk
      rw [List.lookup_cons, h2]
      exact ih ht

/-- Overwriting one customer's status with a terminal status preserves the
closing check. -/
theorem allCustomersClosed_mark (cid : String) (st : CustomerStatus)
    (hst : st = CustomerStatus.stopped ∨ st = CustomerStatus.closed)
    (s : SessionState) (h : allCustomersClosed s = true) :
    allCustomersClosed (markCustomerStatus cid st s) = true := by
  simp only [allCustomersClosed, markCustomerStatus, List.all_map,
    List.all_eq_true, Function.comp] at h ⊢
  intro p hp
  by_cases hpc : p.1 = cid
  · rcases hst with h' | h' <;> simp [hpc, h']
  · simpa [hpc] using h p hp

end WhisperLiveKit

namespace WhisperLiveKit

/-- C1 counterexample.  The claim requires that a frame prediction extends the
last segment only when its speaker matches AND the frame is temporally
adjacent; otherwise a new segment must be appended.  In the code
(`sortformer_backend.py` lines 144–151) there is no adjacency test: a frame
spanning `[5, 6]` with speaker 1 arriving when the last segment is
`⟨1, 0, 1⟩` (which ends at time 1, four seconds away) still extends that
segment to `⟨1, 0, 6⟩` instead of appending `⟨1, 5, 6⟩`. -/
theorem C1_counterexample :
    updateSpeakerSegments [⟨1, 0, 1⟩] 0 5 6 = [⟨1, 0, 6⟩] ∧
      updateSpeakerSegments [⟨1, 0, 1⟩] 0 5 6 ≠ [⟨1, 0, 1⟩, ⟨1, 5, 6⟩] ∧
      (5 : ℚ) ≠ (1 : ℚ) := by
  refine ⟨by decide, by decide, by decide⟩

/-- C1 (amended): for every per-frame speaker prediction processed by the
segment tracker, the last stored segment's end time is extended if and only if
the frame's speaker matches the last segment's speaker — temporal adjacency is
not required; in every other case a new segment with that frame's speaker,
start and end is appended: on a speaker mismatch it is appended after the
stored segments, and on an empty segment list it becomes the sole stored
segment (last conjunct). -/
theorem C1_extends_iff_speaker_matches (segs : List SpeakerSegment) (spk : ℕ)
    (s e : ℚ) (lastSeg : SpeakerSegment) (h : segs.getLast? = some lastSeg) :
    ((updateSpeakerSegments segs spk s e =
        segs.dropLast ++ [{ lastSeg with «end» := e }] ↔
      lastSeg.speaker = spk + 1) ∧
    (updateSpeakerSegments segs spk s e = segs ++ [⟨spk + 1, s, e⟩] ↔
      lastSeg.speaker ≠ spk + 1)) ∧
    updateSpeakerSegments [] spk s e = [⟨spk + 1, s, e⟩] := by
  refine ⟨?_, rfl⟩
  have hne : segs ≠ [] := by
    intro hnil; rw [hnil] at h; simp at h
  have hlen : (segs.dropLast ++ [{ lastSeg with «end» := e }]).length ≠
      (segs ++ [(⟨spk + 1, s, e⟩ : SpeakerSegment)]).length := by
    rw [List.length_append, List.length_append, List.length_dropLast]
    simp only [List.length_singleton]
    have : 0 < segs.length := List.length_pos.mpr hne
    omega
  by_cases hsp : lastSeg.speaker = spk + 1
  · have hval : updateSpeakerSegments segs spk s e =
        segs.dropLast ++ [{ lastSeg with «end» := e }] := by
      simp [updateSpeakerSegments, h, hsp]
    constructor
    · exact ⟨fun _ => hsp, fun _ => hval⟩
    · constructor
      · intro heq
        exact absurd (congrArg List.length (hval.symm.trans heq)) hlen
      · intro hne'; exact absurd hsp hne'
  · have hval : updateSpeakerSegments segs spk s e =
        segs ++ [⟨spk + 1, s, e⟩] := by
      simp [updateSpeakerSegments, h, hsp]
    constructor
    · constructor
      · intro heq
        exact absurd (congrArg List.length (heq.symm.trans hval)) hlen
      · intro heq; exact absurd heq hsp
    · exact ⟨fun _ => hsp, fun _ => hval⟩

/-- Witness for `C1_extends_iff_speaker_matches` at a concrete input: one
stored segment `⟨1, 0, 1⟩`, frame speaker index 0 (stored as speaker 1) and
frame times `[2, 3]`. -/
theorem C1_extends_iff_witness :
    ([(⟨1, 0, 1⟩ : SpeakerSegment)].getLast? = some ⟨1, 0, 1⟩) ∧
    (((updateSpeakerSegments [⟨1, 0, 1⟩] 0 2 3 =
        [(⟨1, 0, 1⟩ : SpeakerSegment)].dropLast ++ [⟨1, 0, 3⟩] ↔
      (1 : ℕ) = 0 + 1) ∧
    (updateSpeakerSegments [⟨1, 0, 1⟩] 0 2 3 =
        [(⟨1, 0, 1⟩ : SpeakerSegment)] ++ [⟨0 + 1, 2, 3⟩] ↔
      (1 : ℕ) ≠ 0 + 1)) ∧
    updateSpeakerSegments [] 0 2 3 = [⟨0 + 1, 2, 3⟩]) :=
  ⟨by decide, C1_extends_iff_speaker_matches [⟨1, 0, 1⟩] 0 2 3 ⟨1, 0, 1⟩ (by decide)⟩

/-- Observing the consecutive sequence numbers `s, s+1, …` starting from an
expectation equal to the first number emits no warnings. -/
theorem observeAll_consecutive (n s : ℕ) :
    (observeAll s (List.range' s n)).2 = [] := by
  induction n generalizing s with
  | zero => rfl
  | succ n ih =>
    rw [List.range'_succ]
    simp [observeAll, observe, ih (s + 1)]

/-- C4 counterexample.  The sequence numbers `[1, 3]` are strictly increasing
and start at 1, yet the monitor emits a warning (expected 2, observed 3): a
strictly increasing sequence starting at 1 does not in general produce zero
warnings — only a consecutive one does. -/
theorem C4_counterexample :
    List.Chain' (fun a b => a < b) [1, 3] ∧ [1, 3].head? = some 1 ∧
      (observeAll 1 [1, 3]).2 = [(2, 3)] := by
  refine ⟨by norm_num [List.chain'_cons], by decide, by decide⟩

/-- C4 (amended): the monitor emits an ordering warning carrying the expected
and observed values exactly when `expected > 1` and `seq ≠ expected`, emits
nothing when `seq = expected`, and always advances `expected` to `seq + 1` and
continues; hence a consecutive sequence `1, 2, …, n` produces zero warnings
and the gapped sequence `1, 2, 3, 7` produces exactly one warning citing
expected 4, observed 7. -/
theorem C4_sequence_warning_iff (expected seq n : ℕ) :
    (observe expected seq).1 = seq + 1 ∧
    ((observe expected seq).2.isSome ↔ 1 < expected ∧ seq ≠ expected) ∧
    ((observe expected seq).2 = none ∨
      (observe expected seq).2 = some (expected, seq)) ∧
    (observeAll 1 (List.range' 1 n)).2 = [] ∧
    (observeAll 1 [1, 2, 3, 7]).2 = [(4, 7)] := by
  refine ⟨rfl, ?_, ?_, observeAll_consecutive n 1, by decide⟩
  · by_cases h : seq ≠ expected ∧ 1 < expected
    · obtain ⟨h1, h2⟩ := h
      simp [observe, h1, h2]
    · simp only [observe, if_neg h, Option.isSome_none,
        Bool.false_eq_true, false_iff]
      tauto
  · by_cases h : seq ≠ expected ∧ 1 < expected
    · right; simp [observe, h]
    · left; simp [observe, h]

/-- C9 counterexample.  On a reused `/asr-multicam` connection, the
`expected_seq` counter is not reset by a second `audio_stream_start`: after a
first stream observed chunks 1 and 2 (so `expected_seq = 3`), the second
stream's first chunk with `seq = 1` draws the warning `(3, 1)`, contradicting
the claim that the first sequence number after a stream's start never warns. -/
theorem C9_counterexample :
    (runConn multicamStep initConnState
      [.start, .meta 1, .meta 2, .start, .meta 1]).2 = [(3, 1)] := by
  decide

/-- C9 (amended): in the smart-store endpoint, `audio_stream_start` resets the
expected counter to 1, so the first chunk observed after any start produces no
warning regardless of its sequence number; in the multicam endpoint the
counter is only initialized once per connection, so only the first stream's
first chunk is guaranteed unchecked — a later stream on the same connection
may be warned on its first chunk. -/
theorem C9_first_chunk_never_warned (st : ConnState) (seq seq' : ℕ) :
    (smartStoreStep (smartStoreStep st .start).1 (.meta seq)).2 = none ∧
    (runConn multicamStep initConnState [.start, .meta seq']).2 = [] := by
  constructor
  · simp [smartStoreStep]
  · simp [runConn, multicamStep, initConnState]

/-- Once a keyword code is in the detected set, evaluating any further line
never fires it again, and the code stays in the set. -/
theorem evalKeywords_of_mem (st : List String) (tx : List Char) (k : String)
    (h : k ∈ st) :
    (evalKeywords st tx).2 ≠ some k ∧ k ∈ (evalKeywords st tx).1 := by
  unfold evalKeywords
  dsimp only
  split_ifs with h1 h2
  · refine ⟨?_, List.mem_cons_of_mem _ h⟩
    intro hk
    have hkk : k = "SAY_HELLO" := by simpa using hk.symm
    exact h1.2 (hkk ▸ h)
  · refine ⟨?_, List.mem_cons_of_mem _ h⟩
    intro hk
    have hkk : k = "SAY_SORRY" := by simpa using hk.symm
    exact h2.2 (hkk ▸ h)
  · exact ⟨by simp, h⟩

/-- A fired keyword code is recorded in the updated detected set. -/
theorem evalKeywords_fired_mem (st : List String) (tx : List Char) (e : String)
    (h : (evalKeywords st tx).2 = some e) : e ∈ (evalKeywords st tx).1 := by
  unfold evalKeywords at h ⊢
  dsimp only at h ⊢
  split_ifs at h ⊢ with h1 h2 <;> simp_all

/-- Keyword codes already in the detected set never appear among the events of
any later evaluation trace. -/
theorem runKeywordLines_not_refired (texts : List (List Char))
    (st : List String) (k : String) (h : k ∈ st) :
    k ∉ (runKeywordLines st texts).2 := by
  induction texts generalizing st with
  | nil => simp [runKeywordLines]
  | cons tx rest ih =>
    obtain ⟨hne, hmem⟩ := evalKeywords_of_mem st tx k h
    simp only [runKeywordLines, List.mem_append]
    rintro (hin | hin)
    · exact hne (Option.mem_def.mp (Option.mem_toList.mp hin))
    · exact ih (evalKeywords st tx).1 hmem hin

/-- Over any trace of finalized lines, each keyword code is dispatched at most
once from any starting detected set. -/
theorem runKeywordLines_count_le_one (texts : List (List Char))
    (st : List String) (k : String) :
    (runKeywordLines st texts).2.count k ≤ 1 := by
  induction texts generalizing st with
  | nil => simp [runKeywordLines]
  | cons tx rest ih =>
    simp only [runKeywordLines, List.count_append]
    rcases he : (evalKeywords st tx).2 with _ | e
    · simpa [he] using ih (evalKeywords st tx).1
    · by_cases hk : e = k
      · subst hk
        have hmem : e ∈ (evalKeywords st tx).1 := evalKeywords_fired_mem st tx e he
        have hz : (runKeywordLines (evalKeywords st tx).1 rest).2.count e = 0 :=
          List.count_eq_zero.mpr (runKeywordLines_not_refired rest _ e hmem)
        simp [he, hz]
      · have hone : (Option.toList (some e)).count k = 0 := by
          simp only [Option.toList, List.count_eq_zero, List.mem_singleton]
          exact fun hh => hk hh.symm
        simp only [he, hone]
        simpa using ih (evalKeywords st tx).1

/-- C2: a stored segment is considered overlapping a token exactly when
`NOT (segment.end ≤ token.start OR segment.start ≥ token.end)`; when a token
overlaps several stored segments the speaker finally assigned is that of the
last overlapping segment in storage order; and for segments `⟨1, 0, 2⟩`,
`⟨2, 2, 4⟩` and a token spanning `[1.5, 2.5]` the assigned speaker is 2. -/
theorem C2_last_overlapping_segment_wins :
    (∀ (segment : SpeakerSegment) (token : Token),
        overlaps segment token = true ↔
          ¬(segment.«end» ≤ token.start ∨ segment.start ≥ token.«end»)) ∧
    (∀ (segs : List SpeakerSegment) (tok : Token),
        (assignOne segs tok).speaker =
          ((segs.filter fun sg => overlaps sg tok).getLast?).elim tok.speaker
            (fun sg => some sg.speaker)) ∧
    assign_speakers_to_tokens [⟨1, 0, 2⟩, ⟨2, 2, 4⟩]
        [⟨3/2, 5/2, "", none⟩] = [⟨3/2, 5/2, "", some 2⟩] := by
  refine ⟨?_, assignOne_speaker, ?_⟩
  · intro segment token
    simp [overlaps, not_or]
  · norm_num [assign_speakers_to_tokens, assignOne, overlaps]

/-- C3: the finally-block bookkeeping transitions the session's aggregate
status to closed, recording an end timestamp, exactly when — after the
current customer is marked closed — every customer's status is in
{closed, stopped}; and once every customer is terminal, the closing predicate
stays true under the later terminal-marking events (stop bookkeeping or
another customer's cleanup), so any later query still reports it closed. -/
theorem C3_session_closes_iff_all_terminal (t : ℚ) (cid cid' : String)
    (s : SessionState) (hmem : (s.customers.lookup cid).isSome = true)
    (hact : s.status = SessionStatus.active) :
    (((cleanupCustomer t cid s).status = SessionStatus.closed ∧
        (cleanupCustomer t cid s).end_time = some t) ↔
      allCustomersClosed (markCustomerStatus cid CustomerStatus.closed s) =
        true) ∧
    (allCustomersClosed s = true →
      allCustomersClosed (stopCustomer cid' s) = true ∧
      allCustomersClosed (cleanupCustomer t cid' s) = true) := by
  constructor
  · by_cases hall :
        allCustomersClosed (markCustomerStatus cid CustomerStatus.closed s) =
          true
    · simp [cleanupCustomer, hmem, hall]
    · have hval : cleanupCustomer t cid s =
          markCustomerStatus cid CustomerStatus.closed s := by
        simp [cleanupCustomer, hmem, hall]
      constructor
      · intro hcl
        exfalso
        have : s.status = SessionStatus.closed := by
          have := hcl.1
          rwa [hval] at this
        rw [hact] at this
        exact SessionStatus.noConfusion this
      · intro h'; exact absurd h' hall
  · intro hallc
    have hstop : allCustomersClosed (stopCustomer cid' s) = true := by
      unfold stopCustomer
      split_ifs with hin
      · exact allCustomersClosed_mark cid' CustomerStatus.stopped
          (Or.inl rfl) s hallc
      · exact hallc
    refine ⟨hstop, ?_⟩
    unfold cleanupCustomer
    dsimp only
    split_ifs with hin hall2
    · exact hall2
    · exact absurd (allCustomersClosed_mark cid' CustomerStatus.closed
        (Or.inr rfl) s hallc) hall2
    · exact hallc

/-- Witness for `C3_session_closes_iff_all_terminal`: a single-customer
session whose cleanup closes the session and records the end timestamp. -/
theorem C3_witness :
    ((([("a", CustomerStatus.active)] : List (String × CustomerStatus)).lookup
        "a").isSome = true) ∧
    ((⟨[("a", CustomerStatus.active)], SessionStatus.active, none⟩ :
        SessionState).status = SessionStatus.active) ∧
    ((((cleanupCustomer 7 "a"
          ⟨[("a", CustomerStatus.active)], SessionStatus.active,
            none⟩).status = SessionStatus.closed ∧
        (cleanupCustomer 7 "a"
          ⟨[("a", CustomerStatus.active)], SessionStatus.active,
            none⟩).end_time = some 7) ↔
      allCustomersClosed (markCustomerStatus "a" CustomerStatus.closed
        ⟨[("a", CustomerStatus.active)], SessionStatus.active, none⟩) =
        true) ∧
    (allCustomersClosed
        (⟨[("a", CustomerStatus.active)], SessionStatus.active, none⟩ :
          SessionState) = true →
      allCustomersClosed (stopCustomer "a"
        ⟨[("a", CustomerStatus.active)], SessionStatus.active, none⟩) =
        true ∧
      allCustomersClosed (cleanupCustomer 7 "a"
        ⟨[("a", CustomerStatus.active)], SessionStatus.active, none⟩) =
        true)) :=
  ⟨by decide, rfl,
    C3_session_closes_iff_all_terminal 7 "a" "a"
      ⟨[("a", CustomerStatus.active)], SessionStatus.active, none⟩
      (by decide) rfl⟩

/-- C5: a keyword that already fired for a customer never fires again — a
second evaluation of the same matching text returns no signal for that
keyword — and over any trace of finalized lines each keyword code is
dispatched at most once per customer. -/
theorem C5_keyword_fires_at_most_once :
    (∀ (st : List String) (tx : List Char) (e : String),
        (evalKeywords st tx).2 = some e →
          (evalKeywords (evalKeywords st tx).1 tx).2 ≠ some e) ∧
    (∀ (texts : List (List Char)) (k : String),
        (runKeywordLines [] texts).2.count k ≤ 1) := by
  constructor
  · intro st tx e h
    exact (evalKeywords_of_mem (evalKeywords st tx).1 tx e
      (evalKeywords_fired_mem st tx e h)).1
  · intro texts k
    exact runKeywordLines_count_le_one texts [] k

/-- Witness for `C5_keyword_fires_at_most_once`: the greeting phrase fires
once from the empty detected set and not a second time. -/
theorem C5_witness :
    ((evalKeywords [] "xin chào".toList).2 = some "SAY_HELLO") ∧
    (evalKeywords (evalKeywords [] "xin chào".toList).1
        "xin chào".toList).2 ≠ some "SAY_HELLO" :=
  ⟨by decide,
    C5_keyword_fires_at_most_once.1 [] "xin chào".toList "SAY_HELLO"
      (by decide)⟩

/-- C6 counterexample.  The dispatched `SESSION_END` payload carries only the
customer id and the event code (`call_experience_event_api`, `basic_server.py`
lines 83–86): two completions with different accumulated transcripts dispatch
identical events, so the event cannot carry the transcript — the transcript
is only written to the log. -/
theorem C6_counterexample :
    (sessionEndCompletion "c" ⟨[], ["hello"]⟩ [("c", ⟨[], ["hello"]⟩)]).1 =
      (sessionEndCompletion "c" ⟨[], ["bye"]⟩ [("c", ⟨[], ["bye"]⟩)]).1 ∧
    (["hello"] : List String) ≠ ["bye"] ∧
    (sessionEndCompletion "c" ⟨[], ["hello"]⟩ [("c", ⟨[], ["hello"]⟩)]).1 =
      [⟨"c", "SESSION_END"⟩] :=
  ⟨rfl, by decide, rfl⟩

/-- C6 (amended): on completion of a customer's stream, exactly one terminal
`SESSION_END` event is dispatched unconditionally, carrying the customer id
and the event code; the customer's accumulated transcript text is logged (not
included in the event); and afterwards the customer's transient record is
removed from `customer_data`. -/
theorem C6_session_end_dispatched_once (cid : String) (info : CustomerInfo)
    (db : List (String × CustomerInfo)) (h : (db.map Prod.fst).Nodup) :
    (sessionEndCompletion cid info db).1 = [⟨cid, "SESSION_END"⟩] ∧
    ((db.lookup cid).isSome = true →
      (sessionEndCompletion cid info db).2.1 =
        String.intercalate " " info.full_transcript) ∧
    (sessionEndCompletion cid info db).2.2.lookup cid = none := by
  refine ⟨rfl, ?_, lookup_eraseP_self cid db h⟩
  intro hs
  simp [sessionEndCompletion, hs]

/-- Witness for `C6_session_end_dispatched_once` on a one-customer map. -/
theorem C6_witness :
    (([("c", (⟨[], ["hi"]⟩ : CustomerInfo))].map Prod.fst).Nodup) ∧
    ((sessionEndCompletion "c" ⟨[], ["hi"]⟩ [("c", ⟨[], ["hi"]⟩)]).1 =
        [⟨"c", "SESSION_END"⟩] ∧
      ((([("c", (⟨[], ["hi"]⟩ : CustomerInfo))].lookup "c").isSome = true →
        (sessionEndCompletion "c" ⟨[], ["hi"]⟩
            [("c", ⟨[], ["hi"]⟩)]).2.1 =
          String.intercalate " "
            (⟨[], ["hi"]⟩ : CustomerInfo).full_transcript) ∧
      (sessionEndCompletion "c" ⟨[], ["hi"]⟩
          [("c", ⟨[], ["hi"]⟩)]).2.2.lookup "c" = none)) :=
  ⟨by simp,
    C6_session_end_dispatched_once "c" ⟨[], ["hi"]⟩ [("c", ⟨[], ["hi"]⟩)]
      (by simp)⟩

/-- C7 counterexample.  When loading the model raises, `__init__` returns
early (`sortformer_backend.py` lines 16–22), so `audio_buffer` and
`speaker_segments` are never created: `diarize` then returns with the state
unchanged (attributes still absent — in particular the fed sample `[1]` is
not buffered anywhere), and `assign_speakers_to_tokens` on a nonempty token
list raises `AttributeError` instead of leaving the token's speaker unset —
refuting both the "buffered" and the "assign leaves all tokens unset" parts
of the claim. -/
theorem C7_counterexample :
    diarize (fun st _ => st) initFailedState [1] = initFailedState ∧
    initFailedState.attrs = none ∧
    DiarState.assign_speakers_to_tokens initFailedState [⟨0, 1, "hi", none⟩] =
      Except.error "AttributeError: speaker_segments" :=
  ⟨rfl, rfl, rfl⟩

/-- C7 (amended): if the diarization collaborator is unavailable at
construction time, the constructor returns early with only `diar_model` set
to `None` and no buffer or segment attributes; `diarize` (feed) is then
accepted and is a complete no-op — the state is unchanged, so the samples are
discarded rather than buffered, and nothing is drained or sent to inference —
but assign does not degrade to a no-op: on any nonempty token list it raises
`AttributeError` because `speaker_segments` was never created, and only an
empty token list passes through unchanged. -/
theorem C7_no_model_noop (loadedPath : DiarState → List ℚ → DiarState)
    (st : DiarState) (pcm : List ℚ) (tokens : List Token)
    (hm : st.diar_model = false) (ha : st.attrs = none) :
    diarize loadedPath st pcm = st ∧
    (tokens ≠ [] →
      DiarState.assign_speakers_to_tokens st tokens =
        Except.error "AttributeError: speaker_segments") ∧
    DiarState.assign_speakers_to_tokens st [] = Except.ok [] := by
  refine ⟨by simp [diarize, hm], ?_, rfl⟩
  intro ht
  cases tokens with
  | nil => exact absurd rfl ht
  | cons tok rest => simp [DiarState.assign_speakers_to_tokens, ha]

/-- Witness for `C7_no_model_noop` on the constructor-failure state with one
token. -/
theorem C7_witness :
    (initFailedState.diar_model = false) ∧ (initFailedState.attrs = none) ∧
    ([(⟨0, 1, "hi", none⟩ : Token)] ≠ []) ∧
    (diarize (fun st _ => st) initFailedState [1] = initFailedState ∧
      ([(⟨0, 1, "hi", none⟩ : Token)] ≠ [] →
        DiarState.assign_speakers_to_tokens initFailedState
            [⟨0, 1, "hi", none⟩] =
          Except.error "AttributeError: speaker_segments") ∧
      DiarState.assign_speakers_to_tokens initFailedState [] =
        Except.ok []) :=
  ⟨rfl, rfl, by simp,
    C7_no_model_noop (fun st _ => st) initFailedState [1]
      [⟨0, 1, "hi", none⟩] rfl rfl⟩

/-- C8 counterexample.  The final empty-audio flush happens only inside the
`audio_stream_stop` handler (`basic_server.py` line 374); a disconnect goes
straight to the finally block, so no flush executes on that termination —
contradicting the claim that all four cleanup steps run on every
termination. -/
theorem C8_counterexample :
    CleanupAction.flushEmpty ∉ executedCleanup TermKind.disconnect false := by
  decide

/-- C8 (amended): on every termination of a multicam stream session the
SessionRegistry update, the cancellation and awaiting of the emission task
(with the awaited task's cancellation or error swallowed as non-fatal, so it
never aborts the later steps) and the pipeline resource release all execute;
the final empty-audio flush executes exactly on a voluntary
`audio_stream_stop`, not on disconnect or error. -/
theorem C8_cleanup_steps (k : TermKind) (awaitRaises : Bool) :
    CleanupAction.registryUpdate ∈ executedCleanup k awaitRaises ∧
    CleanupAction.cancelEmission ∈ executedCleanup k awaitRaises ∧
    CleanupAction.awaitEmission ∈ executedCleanup k awaitRaises ∧
    CleanupAction.pipelineRelease ∈ executedCleanup k awaitRaises ∧
    (CleanupAction.flushEmpty ∈ executedCleanup k awaitRaises ↔
      k = TermKind.stop) := by
  cases k <;> cases awaitRaises <;> decide

/-- C10: on a finalized line containing both the greeting and the apology
phrase, with neither keyword fired yet for the customer, only the greeting
event is dispatched; the apology branch sits behind `elif`, so at most one
keyword event can fire per transcript line. -/
theorem C10_greeting_wins_per_line (st : List String) (tx : List Char)
    (h1 : strContains (tx.map Char.toLower) "xin chào".toList = true)
    (h2 : strContains (tx.map Char.toLower) "xin lỗi".toList = true)
    (h3 : "SAY_HELLO" ∉ st) (h4 : "SAY_SORRY" ∉ st) :
    (evalKeywords st tx).2 = some "SAY_HELLO" ∧
    ∀ (detected : List String) (line : List Char),
      (evalKeywords detected line).2.toList.length ≤ 1 := by
  constructor
  · unfold evalKeywords
    dsimp only
    rw [if_pos ⟨h1, h3⟩]
  · intro detected line
    rcases (evalKeywords detected line).2 <;> simp

/-- Witness for `C10_greeting_wins_per_line` on a line containing both
phrases. -/
theorem C10_witness :
    (strContains ("xin chào xin lỗi".toList.map Char.toLower)
        "xin chào".toList = true) ∧
    (strContains ("xin chào xin lỗi".toList.map Char.toLower)
        "xin lỗi".toList = true) ∧
    ("SAY_HELLO" ∉ ([] : List String)) ∧
    ("SAY_SORRY" ∉ ([] : List String)) ∧
    ((evalKeywords [] "xin chào xin lỗi".toList).2 = some "SAY_HELLO" ∧
      ∀ (detected : List String) (line : List Char),
        (evalKeywords detected line).2.toList.length ≤ 1) :=
  ⟨by decide, by decide, by decide, by decide,
    C10_greeting_wins_per_line [] "xin chào xin lỗi".toList (by decide)
      (by decide) (by decide) (by decide)⟩

end WhisperLiveKit
